import Mathlib

/-!
Shallow embedding of `scrape.py` (datacamp-trello-scrape): a scraper that
extracts course records from a listing page, joins them against a
topic-group taxonomy, and reconciles them onto a Trello board as cards.

Pure fragments of the Python code become Lean functions; the stateful
reconciliation over the Trello board becomes explicit state passing on a
`BoardState`; fallible Python code (exceptions such as `KeyError`,
`AttributeError`, `ScrapeError`, `TopicGroupsError`) returns `Except`.
Pandas rows (`Series`) are association lists from column label to value,
and Python `dict`s are association lists with insert-or-overwrite that
keeps the original key position, matching `dict` semantics.
-/

namespace Scrape

/-! ## Page fetcher (`_get_page_soup`, scrape.py lines 43-61) -/

/-- The result of `requests.get(url)`: a status code and raw content. -/
structure HttpResponse where
  status : Nat
  content : String
deriving DecidableEq, Repr

/-- A parsed document (`BeautifulSoup(page.content, html.parser)`). -/
structure Soup where
  parsedContent : String
deriving DecidableEq, Repr

/-- The `ScrapeError` exception; it carries the observed bad status code
(the Python message is `Page request returned bad status: status`). -/
structure ScrapeErr where
  status : Nat
deriving DecidableEq, Repr

/-- `_get_page_soup`: raises `ScrapeError` unless the status is 200, in
which case it parses and returns the page content. -/
def _get_page_soup (page : HttpResponse) : Except ScrapeErr Soup :=
  if page.status ≠ 200 then
    .error ⟨page.status⟩
  else
    .ok ⟨page.content⟩

/-! ## Generic last-match fold

`populate_all_courses` and `delete_all_cards` select entities with the
pattern `acc = None; for x in xs: if p(x): acc = x`, which keeps the last
match.  We characterise that fold once, here. -/

/-- One overwriting fold step: keep the new element when it matches. -/
def overwriteStep {α : Type} (p : α → Bool) (acc : Option α) (x : α) : Option α :=
  if p x then some x else acc

theorem find?_append {α : Type} (p : α → Bool) (l₁ l₂ : List α) :
    (l₁ ++ l₂).find? p =
      match l₁.find? p with
      | some x => some x
      | none => l₂.find? p := by
  induction l₁ with
  | nil => simp
  | cons a t ih =>
    by_cases h : p a <;> simp [List.find?, h, ih]

theorem foldl_overwrite {α : Type} (p : α → Bool) (l : List α) (acc : Option α) :
    l.foldl (overwriteStep p) acc =
      match l.reverse.find? p with
      | some x => some x
      | none => acc := by
  induction l generalizing acc with
  | nil => simp
  | cons x xs ih =>
    rw [List.foldl_cons, ih, List.reverse_cons, find?_append]
    by_cases h : p x <;>
      cases hfind : xs.reverse.find? p <;>
        simp [overwriteStep, List.find?, h, hfind]

/-! ## Board selection (`populate_all_courses`, scrape.py lines 284-288) -/

/-- A Trello board, identified for our purposes by its name plus an id so
that two distinct boards can share a name. -/
structure Board where
  name : String
  boardId : Nat
deriving DecidableEq, Repr

/-- The board-selection loop of `populate_all_courses` (also repeated in
`delete_all_cards`): start from `None` and overwrite with every board
named `All DC Courses`. -/
def selectBoard (boards : List Board) : Option Board :=
  boards.foldl (fun acc b => if b.name == "All DC Courses" then some b else acc) none

/-- A list (column) on a Trello board. -/
structure BList where
  name : String
  listId : Nat
deriving DecidableEq, Repr

/-- The step after board selection: `dc_courses_board.open_lists()`.
When no board was found, `dc_courses_board` is `None` and the attribute
access raises `AttributeError`, aborting the run. -/
def openListsOfSelected (ob : Option Board) (listsOf : Board → List BList) :
    Except String (List BList) :=
  match ob with
  | none => .error "AttributeError: NoneType object has no attribute open_lists"
  | some b => .ok (listsOf b)

theorem selectBoard_eq_overwrite (boards : List Board) :
    selectBoard boards =
      boards.foldl (overwriteStep (fun b => b.name == "All DC Courses")) none := rfl

/-! ## List classification (`populate_all_courses`, scrape.py lines 289-299) -/

/-- The `python_list` / `r_list` / `other_list` slots after the
classification loop over `board.open_lists()`. -/
structure ClassifiedLists where
  pythonList : Option BList
  rList : Option BList
  otherList : Option BList
deriving DecidableEq, Repr

/-- One iteration of the classification loop: `if L.name == 'Python':
python_list = L elif L.name == 'R': r_list = L else: other_list = L`. -/
def classifyStep (acc : ClassifiedLists) (L : BList) : ClassifiedLists :=
  if L.name == "Python" then { acc with pythonList := some L }
  else if L.name == "R" then { acc with rList := some L }
  else { acc with otherList := some L }

/-- The classification loop over `board.open_lists()`, starting from three
`None` slots. -/
def classifyLists (lists : List BList) : ClassifiedLists :=
  lists.foldl classifyStep ⟨none, none, none⟩

theorem classifyLists_foldl (lists : List BList) (a b c : Option BList) :
    lists.foldl classifyStep ⟨a, b, c⟩ =
      ⟨lists.foldl (overwriteStep (fun L => L.name == "Python")) a,
       lists.foldl (overwriteStep (fun L => L.name == "R")) b,
       lists.foldl (overwriteStep (fun L => !(L.name == "Python") && !(L.name == "R"))) c⟩ := by
  induction lists generalizing a b c with
  | nil => rfl
  | cons L rest ih =>
    by_cases hp : L.name = "Python"
    · simp [List.foldl_cons, classifyStep, overwriteStep, hp, ih]
    · by_cases hr : L.name = "R" <;>
        simp [List.foldl_cons, classifyStep, overwriteStep, hp, hr, ih]

/-! ## Python dictionaries

Association lists with the insert-or-overwrite of Python `dict`: an
existing key keeps its position but gets the new value, a new key is
appended at the end. -/

/-- `d[k] = v` on a Python `dict`. -/
def dictInsert {κ ν : Type} [DecidableEq κ] : List (κ × ν) → κ → ν → List (κ × ν)
  | [], k, v => [(k, v)]
  | p :: ps, k, v => if p.1 = k then (k, v) :: ps else p :: dictInsert ps k v

/-- `d[k]` read on a Python `dict`: the value at the first (and, for
dicts, only) occurrence of the key. -/
def dictLookup {κ ν : Type} [DecidableEq κ] : List (κ × ν) → κ → Option ν
  | [], _ => none
  | p :: ps, k => if p.1 = k then some p.2 else dictLookup ps k

theorem dictLookup_dictInsert {κ ν : Type} [DecidableEq κ]
    (m : List (κ × ν)) (k k2 : κ) (v : ν) :
    dictLookup (dictInsert m k v) k2 = if k2 = k then some v else dictLookup m k2 := by
  induction m with
  | nil =>
    by_cases h : k2 = k
    · subst h; simp [dictInsert, dictLookup]
    · have h2 : ¬(k = k2) := fun hh => h hh.symm
      simp [dictInsert, dictLookup, h, h2]
  | cons p ps ih =>
    by_cases hpk : p.1 = k
    · by_cases h : k2 = k
      · subst h
        simp [dictInsert, dictLookup, hpk]
      · have h2 : ¬(k = k2) := fun hh => h hh.symm
        simp [dictInsert, dictLookup, hpk, h, h2]
    · by_cases hpk2 : p.1 = k2
      · have h : ¬(k2 = k) := fun hh => hpk (hpk2.trans hh)
        simp [dictInsert, dictLookup, hpk, hpk2, h]
      · simp [dictInsert, dictLookup, hpk, hpk2, ih]

theorem mem_keys_dictInsert {κ ν : Type} [DecidableEq κ]
    (m : List (κ × ν)) (k a : κ) (v : ν) :
    a ∈ (dictInsert m k v).map Prod.fst ↔ a ∈ m.map Prod.fst ∨ a = k := by
  induction m with
  | nil => simp [dictInsert]
  | cons p ps ih =>
    by_cases hpk : p.1 = k
    · subst hpk
      simp [dictInsert]
      tauto
    · simp [dictInsert, hpk, ih]
      tauto

theorem nodup_keys_dictInsert {κ ν : Type} [DecidableEq κ]
    (m : List (κ × ν)) (k : κ) (v : ν)
    (h : (m.map Prod.fst).Nodup) : ((dictInsert m k v).map Prod.fst).Nodup := by
  induction m with
  | nil => simp [dictInsert]
  | cons p ps ih =>
    by_cases hpk : p.1 = k
    · subst hpk
      simpa [dictInsert] using h
    · simp only [List.map_cons, List.nodup_cons] at h
      simp only [dictInsert, if_neg hpk, List.map_cons, List.nodup_cons]
      refine ⟨?_, ih h.2⟩
      rw [mem_keys_dictInsert]
      rintro (hm | hk)
      · exact h.1 hm
      · exact hpk hk

/-! ## Python string helpers

`str.strip()`, `str.lower()` and `str.title()`, modelled on the character
lists underlying Lean strings. -/

/-- `str.strip()`: remove leading and trailing whitespace. -/
def pyStrip (s : String) : String :=
  String.mk (((s.data.dropWhile Char.isWhitespace).reverse.dropWhile Char.isWhitespace).reverse)

/-- `str.lower()`. -/
def pyLower (s : String) : String :=
  String.mk (s.data.map Char.toLower)

/-- Helper for `str.title()`: the flag records whether the previous
character was alphabetic. -/
def pyTitleGo : Bool → List Char → List Char
  | _, [] => []
  | prevAlpha, c :: cs =>
    if c.isAlpha then
      (if prevAlpha then c.toLower else c.toUpper) :: pyTitleGo true cs
    else
      c :: pyTitleGo false cs

/-- `str.title()`: capitalise the first letter of every word, lower-case
the rest. -/
def pyTitle (s : String) : String :=
  String.mk (pyTitleGo false s.data)

/-! ## Course extraction (`_scrape_courses`, scrape.py lines 64-106) -/

/-- One `course-block` element of the listing page, reduced to the data
the extractor reads from it: the raw title text, the second entry of the
technology tag's class list, the raw description text, the relative
`href`, the numeric `data-id` of the ancestor, the raw duration text, and
the optional author-name text (`none` models the element being absent). -/
structure CourseBlock where
  nameText : String
  technologyClass : String
  descText : String
  href : String
  dataId : Int
  timeText : String
  authorText : Option String
deriving DecidableEq, Repr

/-- A row of the DataFrame built by `_scrape_courses`: columns `Name`,
`Technology`, `Description`, `Link`, `Time`, `Author`. -/
structure CourseRecord where
  Name : String
  Technology : String
  Description : String
  Link : String
  Time : String
  Author : String
deriving DecidableEq, Repr

/-- The per-block body of the `_scrape_courses` loop: name and author via
`get_text()` (verbatim), description and duration via
`get_text(strip=True)` (stripped), link by prefixing the fixed origin,
technology by dropping the fixed class prefix, author defaulting to the
empty string when the element is absent. -/
def scrapeRecord (blk : CourseBlock) : CourseRecord where
  Name := blk.nameText
  Technology := blk.technologyClass.replace "course-block__technology--" ""
  Description := pyStrip blk.descText
  Link := "https://www.datacamp.com" ++ blk.href
  Time := pyStrip blk.timeText
  Author := blk.authorText.getD ""

/-- `_scrape_courses`: fill the dict `data` keyed by `data_id`, one entry
per block, later blocks overwriting earlier ones with the same id. -/
def _scrape_courses (blocks : List CourseBlock) : List (Int × CourseRecord) :=
  blocks.foldl (fun m blk => dictInsert m blk.dataId (scrapeRecord blk)) []

theorem scrape_foldl_lookup (blocks : List CourseBlock)
    (m : List (Int × CourseRecord)) (i : Int) :
    dictLookup (blocks.foldl (fun m blk => dictInsert m blk.dataId (scrapeRecord blk)) m) i =
      match blocks.reverse.find? (fun b => decide (b.dataId = i)) with
      | some b => some (scrapeRecord b)
      | none => dictLookup m i := by
  induction blocks generalizing m with
  | nil => simp
  | cons b bs ih =>
    rw [List.foldl_cons, ih, List.reverse_cons, find?_append]
    cases hfind : bs.reverse.find? (fun b => decide (b.dataId = i)) with
    | some b2 => simp
    | none =>
      by_cases hb : b.dataId = i
      · simp [List.find?, hb, dictLookup_dictInsert]
      · have hb2 : ¬(i = b.dataId) := fun h => hb h.symm
        simp [List.find?, hb, hb2, dictLookup_dictInsert]

theorem scrape_foldl_nodup (blocks : List CourseBlock)
    (m : List (Int × CourseRecord)) (h : (m.map Prod.fst).Nodup) :
    (((blocks.foldl (fun m blk => dictInsert m blk.dataId (scrapeRecord blk)) m)).map
      Prod.fst).Nodup := by
  induction blocks generalizing m with
  | nil => simpa
  | cons b bs ih => exact ih _ (nodup_keys_dictInsert _ _ _ h)

/-! ## Taxonomy validation (`_validate_topic_groups`, scrape.py lines 164-199) -/

/-- The static `TOPIC_GROUPS` configuration: group name to topic titles,
in source order. -/
abbrev Taxonomy := List (String × List String)

/-- The `TOPIC_GROUPS` constant of scrape.py lines 8-32. -/
def TOPIC_GROUPS : Taxonomy := [
  ("Programming", ["Programming"]),
  ("Data", ["Importing & Cleaning Data", "Data Manipulation", "Data Visualization"]),
  ("Probability & Statistics", ["Probability & Statistics"]),
  ("Machine Learning", ["Machine Learning"]),
  ("Applied", ["Applied Finance", "Reporting", "Case Studies"]),
  ("Other", ["Management", "Other"])]

/-- `known_topics`: the flattened list of all topic titles across all
groups, in iteration order. -/
def knownTopics (tg : Taxonomy) : List String :=
  tg.flatMap (fun g => g.2)

/-- The distinct elements of a list in first-occurrence order: the keys
of `collections.Counter` in iteration order. -/
def firstOccurrences : List String → List String
  | [] => []
  | t :: ts => t :: (firstOccurrences ts).filter (fun x => decide (x ≠ t))

theorem mem_firstOccurrences (l : List String) (a : String) :
    a ∈ firstOccurrences l ↔ a ∈ l := by
  induction l with
  | nil => simp [firstOccurrences]
  | cons t ts ih =>
    by_cases h : a = t <;> simp [firstOccurrences, List.mem_filter, h, ih]

/-- `more_than_once`: the topics whose frequency in `known_topics`
exceeds one, in `Counter` iteration order. -/
def moreThanOnce (tg : Taxonomy) : List String :=
  (firstOccurrences (knownTopics tg)).filter
    (fun t => decide (1 < List.count t (knownTopics tg)))

/-- `missing_topics`: the discovered topics absent from `known_topics`. -/
def missingTopics (tg : Taxonomy) (topics : List String) : List String :=
  topics.filter (fun t => decide (t ∉ knownTopics tg))

/-- The `TopicGroupsError` exception; its message is assembled from the
two violation lists, which we carry directly. -/
structure TopicGroupsErr where
  duplicated : List String
  missing : List String
deriving DecidableEq, Repr

/-- `_validate_topic_groups`: collect both violation lists and raise a
single `TopicGroupsError` when either is non-empty. -/
def _validate_topic_groups (tg : Taxonomy) (topics : List String) :
    Except TopicGroupsErr Unit :=
  let d := moreThanOnce tg
  let m := missingTopics tg topics
  if d = [] ∧ m = [] then .ok () else .error ⟨d, m⟩

/-- The duplicated-topics list carried by a validation outcome. -/
def dupOf : Except TopicGroupsErr Unit → List String
  | .error e => e.duplicated
  | .ok _ => []

/-- The missing-topics list carried by a validation outcome. -/
def missOf : Except TopicGroupsErr Unit → List String
  | .error e => e.missing
  | .ok _ => []

theorem mem_moreThanOnce (tg : Taxonomy) (t : String) :
    t ∈ moreThanOnce tg ↔ 1 < List.count t (knownTopics tg) := by
  rw [moreThanOnce, List.mem_filter, mem_firstOccurrences]
  constructor
  · rintro ⟨hmem, hcount⟩
    simpa using hcount
  · intro hcount
    refine ⟨?_, by simpa using hcount⟩
    have hpos : 0 < List.count t (knownTopics tg) := Nat.lt_of_lt_of_le Nat.zero_lt_one hcount.le
    exact List.count_pos_iff.mp hpos

theorem mem_missingTopics (tg : Taxonomy) (topics : List String) (t : String) :
    t ∈ missingTopics tg topics ↔ t ∈ topics ∧ t ∉ knownTopics tg := by
  simp [missingTopics, List.mem_filter]

/-! ## Enrichment (`get_courses`, scrape.py lines 219-248, and
`_get_list_name`, lines 202-216)

Pandas `Series.map(dict)` yields `NaN` where the key is absent; we model
a possibly-`NaN` string cell as `Option String` (`none` = `NaN`). -/

/-- The membership dict of `get_courses` line 242-243:
`course: topic for (topic, courses) in courses_by_topic.items() for course in courses`. -/
def buildMembership (coursesByTopic : List (String × List String)) :
    List (String × String) :=
  coursesByTopic.foldl
    (fun m tc => tc.2.foldl (fun m2 cname => dictInsert m2 cname tc.1) m) []

/-- The group dict of `get_courses` lines 245-246:
`topic: group for (group, topics) in TOPIC_GROUPS.items() for topic in topics`. -/
def buildGroupMap (tg : Taxonomy) : List (String × String) :=
  tg.foldl (fun m g => g.2.foldl (fun m2 t => dictInsert m2 t g.1) m) []

/-- `_get_list_name`: `"Other"` for technologies other than python/r;
otherwise `technology.title() - group.title()`.  When the course had no
topic, pandas has put `NaN` (a float) in the `Group` cell, and
`group.title()` raises `AttributeError`; the `none` branch models that. -/
def _get_list_name (technology : String) (group : Option String) :
    Except String String :=
  if pyLower technology ∉ ["python", "r"] then
    .ok "Other"
  else
    match group with
    | none => .error "AttributeError: float object has no attribute title"
    | some g => .ok (pyTitle technology ++ " - " ++ pyTitle g)

/-- A course row after `get_courses` added the `Topic`, `Group` and
`List` columns. -/
structure EnrichedCourse where
  base : CourseRecord
  Topic : Option String
  Group : Option String
  ListName : String
deriving DecidableEq, Repr

/-- The per-course enrichment of `get_courses` lines 242-247: join the
name against the membership dict, the topic against the group dict, and
apply `_get_list_name` rowwise. -/
def enrichCourse (coursesByTopic : List (String × List String)) (tg : Taxonomy)
    (c : CourseRecord) : Except String EnrichedCourse :=
  let topic := dictLookup (buildMembership coursesByTopic) c.Name
  let group := topic.bind (fun t => dictLookup (buildGroupMap tg) t)
  match _get_list_name c.Technology group with
  | .ok ln => .ok ⟨c, topic, group, ln⟩
  | .error e => .error e

/-! ## Board reconciliation (`_add_card`, scrape.py lines 266-280, and the
loop of `populate_all_courses`, lines 301-303)

`_add_card` receives a pandas row from `iterrows()`; we model the row as
an association list from column label to value, with `KeyError` on a
missing label.  The three Trello lists plus the remainder of the board
are modelled as a `BoardState`; `board.all_cards()` is the concatenation
of all of them, re-read at every call. -/

/-- A pandas row (`Series`): column label to cell value. -/
abbrev Row := List (String × String)

/-- `row[label]`: `KeyError` when the label is absent. -/
def rowGet (row : Row) (k : String) : Except String String :=
  match dictLookup row k with
  | some v => .ok v
  | none => .error ("KeyError: " ++ k)

/-- The row that `iterrows()` yields for a `_scrape_courses` DataFrame
row: the six columns of scrape.py line 104, in order. -/
def rowOfRecord (c : CourseRecord) : Row :=
  [("Name", c.Name), ("Technology", c.Technology), ("Description", c.Description),
   ("Link", c.Link), ("Time", c.Time), ("Author", c.Author)]

/-- A Trello card: its name and its description/body. -/
structure Card where
  name : String
  body : String
deriving DecidableEq, Repr

/-- The card state of the board: the three lists the loop classified,
plus the cards on any remaining lists (which `board.all_cards()` also
returns). -/
structure BoardState where
  pythonCards : List Card
  rCards : List Card
  otherCards : List Card
  restCards : List Card
deriving DecidableEq, Repr

/-- `board.all_cards()`. -/
def BoardState.allCards (s : BoardState) : List Card :=
  s.pythonCards ++ s.rCards ++ s.otherCards ++ s.restCards

/-- Which of the three lists `L` ends up pointing at. -/
inductive Target where
  | python
  | r
  | other
deriving DecidableEq, Repr

/-- `L.add_card(...)`: append a card to the selected list. -/
def BoardState.addTo (s : BoardState) : Target → Card → BoardState
  | .python, c => { s with pythonCards := s.pythonCards ++ [c] }
  | .r, c => { s with rCards := s.rCards ++ [c] }
  | .other, c => { s with otherCards := s.otherCards ++ [c] }

/-- The duplicate-detection loop of `_add_card`: scan every card on the
board and flag when one has exactly the row's `Name`. -/
def dupeScan (row : Row) : List Card → Except String Bool
  | [] => .ok false
  | c :: cs =>
    match rowGet row "Name" with
    | .error e => .error e
    | .ok n =>
      match dupeScan row cs with
      | .error e => .error e
      | .ok b => .ok ((c.name == n) || b)

/-- `_add_card`: read `row['Type']` to pick the target list, scan the
whole board for a card with the row's name, and only when none is found
add a card with `row['Name']` and body
`row['Description'] + newline + row['Link']`. -/
def _add_card (row : Row) (s : BoardState) : Except String BoardState :=
  match rowGet row "Type" with
  | .error e => .error e
  | .ok tech =>
    let tgt : Target :=
      if tech == "python" then .python
      else if tech == "r" then .r
      else .other
    match dupeScan row s.allCards with
    | .error e => .error e
    | .ok dupe =>
      if dupe then .ok s
      else
        match rowGet row "Name" with
        | .error e => .error e
        | .ok n =>
          match rowGet row "Description" with
          | .error e => .error e
          | .ok d =>
            match rowGet row "Link" with
            | .error e => .error e
            | .ok l => .ok (s.addTo tgt ⟨n, d ++ "\n" ++ l⟩)

/-- The reconcile loop of `populate_all_courses` (lines 301-303): run
`_add_card` on every row in order; an exception aborts the run. -/
def populateCourses (rows : List Row) (s : BoardState) : Except String BoardState :=
  match rows with
  | [] => .ok s
  | r :: rs =>
    match _add_card r s with
    | .error e => .error e
    | .ok s2 => populateCourses rs s2

/-! ## Reconciliation lemmas -/

/-- The names of all cards currently on the board. -/
def cardNames (s : BoardState) : List String :=
  s.allCards.map (fun c => c.name)

/-- A row holds every column `_add_card` reads. -/
def hasReqKeys (row : Row) : Prop :=
  (rowGet row "Type").isOk = true ∧ (rowGet row "Name").isOk = true ∧
    (rowGet row "Description").isOk = true ∧ (rowGet row "Link").isOk = true

instance (row : Row) : Decidable (hasReqKeys row) := by
  unfold hasReqKeys
  infer_instance

theorem rowGet_isOk_exists (row : Row) (k : String) (h : (rowGet row k).isOk = true) :
    ∃ v, rowGet row k = .ok v := by
  cases hv : rowGet row k with
  | ok v => exact ⟨v, rfl⟩
  | error e => rw [hv] at h; simp [Except.isOk, Except.toBool] at h

theorem mem_allCards_addTo (s : BoardState) (tgt : Target) (c d : Card) :
    d ∈ (s.addTo tgt c).allCards ↔ d ∈ s.allCards ∨ d = c := by
  cases tgt <;> simp [BoardState.addTo, BoardState.allCards] <;> tauto

theorem dupeScan_ok (row : Row) (n : String) (h : rowGet row "Name" = .ok n)
    (cards : List Card) :
    dupeScan row cards = .ok (cards.any (fun c => c.name == n)) := by
  induction cards with
  | nil => simp [dupeScan]
  | cons c cs ih => simp [dupeScan, h, ih, List.any_cons]

theorem add_card_ok (row : Row) (s : BoardState) (h : hasReqKeys row) :
    ∃ s2, _add_card row s = .ok s2 ∧
      (∀ c ∈ s.allCards, c ∈ s2.allCards) ∧
      (∀ n, rowGet row "Name" = .ok n → n ∈ cardNames s2) := by
  obtain ⟨t, ht⟩ := rowGet_isOk_exists row "Type" h.1
  obtain ⟨n, hn⟩ := rowGet_isOk_exists row "Name" h.2.1
  obtain ⟨d, hd⟩ := rowGet_isOk_exists row "Description" h.2.2.1
  obtain ⟨l, hl⟩ := rowGet_isOk_exists row "Link" h.2.2.2
  rw [_add_card, ht, dupeScan_ok row n hn]
  by_cases hdupe : s.allCards.any (fun c => c.name == n) = true
  · refine ⟨s, by simp [hdupe], fun c hc => hc, ?_⟩
    intro n2 hn2
    rw [hn] at hn2
    cases hn2
    obtain ⟨c, hc, hcn⟩ := List.any_eq_true.mp hdupe
    exact List.mem_map.mpr ⟨c, hc, by simpa using hcn⟩
  · simp only [hdupe, Bool.false_eq_true, if_false, hn, hd, hl]
    refine ⟨_, rfl, ?_, ?_⟩
    · intro c hc
      exact (mem_allCards_addTo s _ _ c).mpr (Or.inl hc)
    · intro n2 hn2
      obtain rfl : n = n2 := by injection hn2
      refine List.mem_map.mpr ⟨⟨n, d ++ "\n" ++ l⟩, ?_, rfl⟩
      exact (mem_allCards_addTo s _ _ _).mpr (Or.inr rfl)

theorem add_card_skip (row : Row) (s : BoardState) (n : String)
    (htype : (rowGet row "Type").isOk = true)
    (hname : rowGet row "Name" = .ok n)
    (hmem : n ∈ cardNames s) :
    _add_card row s = .ok s := by
  obtain ⟨t, ht⟩ := rowGet_isOk_exists row "Type" htype
  rw [_add_card, ht, dupeScan_ok row n hname]
  obtain ⟨c, hc, hcn⟩ := List.mem_map.mp hmem
  have hdupe : s.allCards.any (fun c => c.name == n) = true :=
    List.any_eq_true.mpr ⟨c, hc, by simp [hcn]⟩
  simp [hdupe]

theorem populate_run_ok (rows : List Row) (s : BoardState)
    (h : ∀ r ∈ rows, hasReqKeys r) :
    ∃ s1, populateCourses rows s = .ok s1 ∧
      (∀ c ∈ s.allCards, c ∈ s1.allCards) ∧
      (∀ r ∈ rows, ∀ n, rowGet r "Name" = .ok n → n ∈ cardNames s1) := by
  induction rows generalizing s with
  | nil => exact ⟨s, rfl, fun c hc => hc, by simp⟩
  | cons r rs ih =>
    obtain ⟨s2, hstep, hmono2, hname2⟩ := add_card_ok r s (h r (by simp))
    obtain ⟨s1, hrun, hmono1, hname1⟩ := ih s2 (fun r2 hr2 => h r2 (by simp [hr2]))
    refine ⟨s1, ?_, fun c hc => hmono1 c (hmono2 c hc), ?_⟩
    · simp [populateCourses, hstep, hrun]
    · intro r2 hr2 n hn
      rcases List.mem_cons.mp hr2 with hr2 | hr2
      · subst hr2
        obtain ⟨c, hc, hcn⟩ := List.mem_map.mp (hname2 n hn)
        exact List.mem_map.mpr ⟨c, hmono1 c hc, hcn⟩
      · exact hname1 r2 hr2 n hn

theorem populate_run_fixed (rows : List Row) (s : BoardState)
    (h : ∀ r ∈ rows, hasReqKeys r ∧ ∃ n, rowGet r "Name" = .ok n ∧ n ∈ cardNames s) :
    populateCourses rows s = .ok s := by
  induction rows with
  | nil => rfl
  | cons r rs ih =>
    obtain ⟨hkeys, n, hname, hmem⟩ := h r (by simp)
    rw [populateCourses, add_card_skip r s n hkeys.1 hname hmem]
    exact ih (fun r2 hr2 => h r2 (by simp [hr2]))

/-! ## Claims C1 and C2 -/

/-- Claim C1 (code bug): for every course record produced by the scrape,
with columns `Name`, `Technology`, `Description`, `Link`, `Time`,
`Author`, the reconcile step `_add_card` never reaches list selection or
card creation: it raises `KeyError` on `row['Type']`, a column the
scraped DataFrame does not have, whatever the board state. -/
theorem c1_add_card_keyerror_on_scraped_row (c : CourseRecord) (s : BoardState) :
    _add_card (rowOfRecord c) s = .error "KeyError: Type" := by
  have h : rowGet (rowOfRecord c) "Type" = .error "KeyError: Type" := rfl
  rw [_add_card, h]

/-- Claim C2: reconciliation is idempotent.  For every row set carrying
the columns `_add_card` reads and every initial board state, the first
run succeeds in some final state `s1` in which every row's name is
present on the board; running the reconcile loop again from `s1` returns
`s1` unchanged (zero new cards). -/
theorem c2_reconcile_idempotent (rows : List Row) (s0 : BoardState)
    (h : ∀ r ∈ rows, hasReqKeys r) :
    ∃ s1, populateCourses rows s0 = .ok s1 ∧
      populateCourses rows s1 = .ok s1 ∧
      ∀ r ∈ rows, ∀ n, rowGet r "Name" = .ok n → n ∈ cardNames s1 := by
  obtain ⟨s1, hrun, hmono, hnames⟩ := populate_run_ok rows s0 h
  refine ⟨s1, hrun, ?_, hnames⟩
  apply populate_run_fixed
  intro r hr
  obtain ⟨n, hn⟩ := rowGet_isOk_exists r "Name" (h r hr).2.1
  exact ⟨h r hr, n, hn, hnames r hr n hn⟩

/-- A concrete row carrying the four columns `_add_card` reads. -/
def sampleTypedRow : Row :=
  [("Type", "python"), ("Name", "Intro to Python"),
   ("Description", "Master the basics."), ("Link", "https://www.datacamp.com/courses/intro")]

/-- Witness for claim C2 at a concrete one-row course set and the empty
board. -/
theorem c2_reconcile_idempotent_witness :
    (∀ r ∈ [sampleTypedRow], hasReqKeys r) ∧
      ∃ s1, populateCourses [sampleTypedRow] ⟨[], [], [], []⟩ = .ok s1 ∧
        populateCourses [sampleTypedRow] s1 = .ok s1 ∧
        ∀ r ∈ [sampleTypedRow], ∀ n, rowGet r "Name" = .ok n → n ∈ cardNames s1 :=
  ⟨by decide, c2_reconcile_idempotent [sampleTypedRow] ⟨[], [], [], []⟩ (by decide)⟩

/-! ## Claims C3 and C6 -/

theorem foldl_overwrite_none {α : Type} (p : α → Bool) (l : List α) :
    l.foldl (overwriteStep p) none = l.reverse.find? p := by
  rw [foldl_overwrite]
  cases h : l.reverse.find? p <;> simp

/-- Claim C3 (corrected): counterexample.  With two distinct boards both
named `All DC Courses`, the selection loop returns the second one, not
the first board whose name matches. -/
theorem c3_first_board_counterexample :
    selectBoard [⟨"All DC Courses", 1⟩, ⟨"All DC Courses", 2⟩] =
        some ⟨"All DC Courses", 2⟩ ∧
      ([⟨"All DC Courses", 1⟩, ⟨"All DC Courses", 2⟩] : List Board).find?
          (fun b => b.name == "All DC Courses") =
        some ⟨"All DC Courses", 1⟩ ∧
      (⟨"All DC Courses", 2⟩ : Board) ≠ ⟨"All DC Courses", 1⟩ := by
  decide

/-- Claim C3 (amended): board selection returns the last board whose
name equals `All DC Courses` (equivalently, the first match of the
reversed list; this coincides with the first match when at most one
board has that name), and the run proceeds past `open_lists` exactly
when some board has that name — with no match the `None` board makes the
next step fail. -/
theorem c3_select_board_last_match (boards : List Board) (listsOf : Board → List BList) :
    selectBoard boards = boards.reverse.find? (fun b => b.name == "All DC Courses") ∧
      ((openListsOfSelected (selectBoard boards) listsOf).isOk = true ↔
        ∃ b ∈ boards, b.name = "All DC Courses") := by
  have h1 : selectBoard boards = boards.reverse.find? (fun b => b.name == "All DC Courses") := by
    rw [selectBoard_eq_overwrite, foldl_overwrite_none]
  refine ⟨h1, ?_⟩
  rw [h1]
  cases hf : boards.reverse.find? (fun b => b.name == "All DC Courses") with
  | some b =>
    simp only [openListsOfSelected]
    constructor
    · intro _
      refine ⟨b, ?_, ?_⟩
      · simpa using List.mem_of_find?_eq_some hf
      · simpa using List.find?_some hf
    · intro _
      rfl
  | none =>
    simp only [openListsOfSelected]
    constructor
    · intro hok
      simp [Except.isOk, Except.toBool] at hok
    · rintro ⟨b, hb, hname⟩
      rw [List.find?_eq_none] at hf
      exact absurd (by simpa using hname) (by simpa using hf b (List.mem_reverse.mpr hb))

/-- Claim C6: the classification loop leaves `python_list` at the last
list named `Python`, `r_list` at the last list named `R` (each being
"the" such list when names are unique), and `other_list` at only the
last list with any other name — a single slot, not a union. -/
theorem c6_classify_lists_last_wins (lists : List BList) :
    classifyLists lists =
      ⟨lists.reverse.find? (fun L => L.name == "Python"),
       lists.reverse.find? (fun L => L.name == "R"),
       lists.reverse.find? (fun L => !(L.name == "Python") && !(L.name == "R"))⟩ := by
  rw [classifyLists, classifyLists_foldl, foldl_overwrite_none, foldl_overwrite_none,
    foldl_overwrite_none]

/-! ## Claim C7 -/

/-- Claim C7: `_scrape_courses` keys its output by `data-id`: the keys
are pairwise distinct, and looking up an id yields exactly the record of
the last block in document order carrying that id (`none` when no block
does). -/
theorem c7_scrape_courses_one_record_per_id (blocks : List CourseBlock) :
    ((_scrape_courses blocks).map Prod.fst).Nodup ∧
      ∀ i : Int, dictLookup (_scrape_courses blocks) i =
        (blocks.reverse.find? (fun b => decide (b.dataId = i))).map scrapeRecord := by
  constructor
  · exact scrape_foldl_nodup blocks [] (by simp)
  · intro i
    rw [_scrape_courses, scrape_foldl_lookup]
    cases hf : blocks.reverse.find? (fun b => decide (b.dataId = i)) <;> simp [dictLookup]

/-! ## Claim C8 -/

/-- Claim C8: the fetch returns a parsed document exactly when the
response status is 200, and on any other status it returns no document
but a `ScrapeError` carrying the observed status code. -/
theorem c8_get_page_soup_status (page : HttpResponse) :
    ((∃ doc, _get_page_soup page = .ok doc) ↔ page.status = 200) ∧
      ∀ e, _get_page_soup page = .error e → e.status = page.status := by
  constructor
  · constructor
    · rintro ⟨doc, hdoc⟩
      by_contra h
      simp [_get_page_soup, h] at hdoc
    · intro h
      exact ⟨⟨page.content⟩, by simp [_get_page_soup, h]⟩
  · intro e he
    by_cases h : page.status = 200
    · simp [_get_page_soup, h] at he
    · simp [_get_page_soup, h] at he
      rw [← he]

/-- Witness for claim C8 at a concrete 404 response. -/
theorem c8_get_page_soup_status_witness :
    _get_page_soup ⟨404, "not found"⟩ = .error ⟨404⟩ ∧
      (⟨404⟩ : ScrapeErr).status = (⟨404, "not found"⟩ : HttpResponse).status :=
  ⟨rfl, (c8_get_page_soup_status ⟨404, "not found"⟩).2 ⟨404⟩ rfl⟩

/-! ## Claims C4 and C9 -/

/-- How many groups of the taxonomy list a given topic title (at least
once): the quantity the claim's "appears in more than one group" is
about. -/
def groupsContaining (tg : Taxonomy) (t : String) : Nat :=
  (tg.filter (fun g => decide (t ∈ g.2))).length

/-- Claim C4 (corrected): counterexample.  A topic listed twice inside a
single group makes validation fail although no topic title appears in
more than one group and no discovered topic is absent from the
taxonomy. -/
theorem c4_within_group_duplicate_counterexample :
    _validate_topic_groups [("G", ["X", "X"])] ["X"] = .error ⟨["X"], []⟩ ∧
      (∀ t : String, groupsContaining [("G", ["X", "X"])] t ≤ 1) ∧
      ∀ t ∈ (["X"] : List String), t ∈ knownTopics [("G", ["X", "X"])] := by
  refine ⟨rfl, ?_, by decide⟩
  intro t
  by_cases h : t ∈ (["X", "X"] : List String) <;>
    simp [groupsContaining, List.filter, h]

/-- Claim C4 (amended): validation fails exactly when some topic title
occurs more than once across the flattened taxonomy (also when both
occurrences are inside the same group) or some discovered topic title is
absent from the taxonomy; the single error carries exactly the list of
multiply-occurring titles and exactly the list of absent discovered
titles. -/
theorem c4_validate_multiset_amended (tg : Taxonomy) (topics : List String) :
    ((_validate_topic_groups tg topics).isOk = false ↔
        (∃ t, 1 < List.count t (knownTopics tg)) ∨ ∃ t ∈ topics, t ∉ knownTopics tg) ∧
      (∀ t, t ∈ dupOf (_validate_topic_groups tg topics) ↔
          1 < List.count t (knownTopics tg)) ∧
      ∀ t, t ∈ missOf (_validate_topic_groups tg topics) ↔
          t ∈ topics ∧ t ∉ knownTopics tg := by
  by_cases hcond : moreThanOnce tg = [] ∧ missingTopics tg topics = []
  · have hval : _validate_topic_groups tg topics = .ok () := by
      simp [_validate_topic_groups, hcond.1, hcond.2]
    have hnoviol : ¬((∃ t, 1 < List.count t (knownTopics tg)) ∨
        ∃ t ∈ topics, t ∉ knownTopics tg) := by
      rintro (⟨t, ht⟩ | ⟨t, ht, hnot⟩)
      · have hm : t ∈ moreThanOnce tg := (mem_moreThanOnce tg t).mpr ht
        rw [hcond.1] at hm
        exact absurd hm (List.not_mem_nil t)
      · have hm : t ∈ missingTopics tg topics := (mem_missingTopics tg topics t).mpr ⟨ht, hnot⟩
        rw [hcond.2] at hm
        exact absurd hm (List.not_mem_nil t)
    refine ⟨?_, ?_, ?_⟩
    · rw [hval]
      simp only [Except.isOk, Except.toBool]
      constructor
      · intro hfalse
        simp at hfalse
      · intro hviol
        exact absurd hviol hnoviol
    · intro t
      rw [hval]
      simp only [dupOf, List.not_mem_nil, false_iff]
      intro ht
      exact hnoviol (Or.inl ⟨t, ht⟩)
    · intro t
      rw [hval]
      simp only [missOf, List.not_mem_nil, false_iff]
      intro ht
      exact hnoviol (Or.inr ⟨t, ht.1, ht.2⟩)
  · have hval : _validate_topic_groups tg topics =
        .error ⟨moreThanOnce tg, missingTopics tg topics⟩ := by
      simp [_validate_topic_groups, hcond]
    refine ⟨?_, ?_, ?_⟩
    · rw [hval]
      simp only [Except.isOk, Except.toBool, true_iff]
      rcases Decidable.not_and_iff_or_not.mp hcond with hd | hm
      · obtain ⟨t, ht⟩ := List.exists_mem_of_ne_nil _ hd
        exact Or.inl ⟨t, (mem_moreThanOnce tg t).mp ht⟩
      · obtain ⟨t, ht⟩ := List.exists_mem_of_ne_nil _ hm
        have := (mem_missingTopics tg topics t).mp ht
        exact Or.inr ⟨t, this.1, this.2⟩
    · intro t
      rw [hval]
      exact mem_moreThanOnce tg t
    · intro t
      rw [hval]
      exact mem_missingTopics tg topics t

/-- Witness for the amended claim C4: a duplicated title and an
unassigned discovered title at the same time, both reported. -/
theorem c4_validate_multiset_amended_witness :
    (_validate_topic_groups [("A", ["X"]), ("B", ["X"])] ["Y"]).isOk = false ∧
      "X" ∈ dupOf (_validate_topic_groups [("A", ["X"]), ("B", ["X"])] ["Y"]) ∧
      "Y" ∈ missOf (_validate_topic_groups [("A", ["X"]), ("B", ["X"])] ["Y"]) :=
  ⟨(c4_validate_multiset_amended [("A", ["X"]), ("B", ["X"])] ["Y"]).1.mpr
      (Or.inl ⟨"X", by decide⟩),
   ((c4_validate_multiset_amended [("A", ["X"]), ("B", ["X"])] ["Y"]).2.1 "X").mpr
      (by decide),
   ((c4_validate_multiset_amended [("A", ["X"]), ("B", ["X"])] ["Y"]).2.2 "Y").mpr
      (by decide)⟩

/-- Claim C9: a taxonomy that is a strict superset of the discovered
topics passes validation: when no topic title occurs twice across the
taxonomy and every discovered topic is listed, validation succeeds,
regardless of taxonomy titles that were never discovered. -/
theorem c9_validate_superset_ok (tg : Taxonomy) (topics : List String)
    (h1 : ∀ t ∈ knownTopics tg, List.count t (knownTopics tg) ≤ 1)
    (h2 : ∀ t ∈ topics, t ∈ knownTopics tg) :
    _validate_topic_groups tg topics = .ok () := by
  have hd : moreThanOnce tg = [] := by
    rw [List.eq_nil_iff_forall_not_mem]
    intro t ht
    rw [mem_moreThanOnce] at ht
    have hmem : t ∈ knownTopics tg :=
      List.count_pos_iff.mp (Nat.lt_trans Nat.zero_lt_one ht)
    exact absurd ht (Nat.not_lt.mpr (h1 t hmem))
  have hm : missingTopics tg topics = [] := by
    rw [List.eq_nil_iff_forall_not_mem]
    intro t ht
    rw [mem_missingTopics] at ht
    exact ht.2 (h2 t ht.1)
  simp [_validate_topic_groups, hd, hm]

/-- Witness for claim C9: the taxonomy lists `Y`, which was never
discovered, and validation still succeeds. -/
theorem c9_validate_superset_ok_witness :
    _validate_topic_groups [("G", ["X", "Y"])] ["X"] = .ok () ∧
      "Y" ∈ knownTopics [("G", ["X", "Y"])] ∧ "Y" ∉ (["X"] : List String) :=
  ⟨c9_validate_superset_ok [("G", ["X", "Y"])] ["X"] (by decide) (by decide), by decide⟩

/-! ## Claim C5 -/

theorem dictLookup_inner_fold_none (names : List String) (topic : String)
    (m : List (String × String)) (name : String) (h : name ∉ names) :
    dictLookup (names.foldl (fun m2 c => dictInsert m2 c topic) m) name =
      dictLookup m name := by
  induction names generalizing m with
  | nil => rfl
  | cons c cs ih =>
    rw [List.foldl_cons, ih _ (fun hx => h (by simp [hx])), dictLookup_dictInsert]
    exact if_neg (fun hh => h (by simp [hh]))

theorem buildMembership_go_none (cbt : List (String × List String))
    (m : List (String × String)) (name : String)
    (h : ∀ p ∈ cbt, name ∉ p.2) (hm : dictLookup m name = none) :
    dictLookup
      (cbt.foldl (fun m tc => tc.2.foldl (fun m2 cname => dictInsert m2 cname tc.1) m) m)
      name = none := by
  induction cbt generalizing m with
  | nil => exact hm
  | cons p ps ih =>
    rw [List.foldl_cons]
    refine ih _ (fun q hq => h q (by simp [hq])) ?_
    rw [dictLookup_inner_fold_none p.2 p.1 m name (h p (by simp))]
    exact hm

/-- A course name that appears on no topic subpage is absent from the
membership dict. -/
theorem buildMembership_lookup_none (cbt : List (String × List String)) (name : String)
    (h : ∀ p ∈ cbt, name ∉ p.2) :
    dictLookup (buildMembership cbt) name = none :=
  buildMembership_go_none cbt [] name h rfl

/-- Claim C5 (corrected): counterexample.  A scraped python course whose
name appears on no topic subpage makes enrichment fail: its `Group` is
`NaN` and `_get_list_name` calls `.title()` on it. -/
theorem c5_missing_topic_counterexample :
    (∀ p ∈ ([("Programming", ["Some Course"])] : List (String × List String)),
        "Quantum Pandas" ∉ p.2) ∧
      enrichCourse [("Programming", ["Some Course"])] TOPIC_GROUPS
          ⟨"Quantum Pandas", "python", "Learn qubits.",
            "https://www.datacamp.com/courses/qp", "4 hours", ""⟩ =
        .error "AttributeError: float object has no attribute title" :=
  ⟨by decide, rfl⟩

/-- Claim C5 (amended): for a course whose name appears on no topic
subpage, `Topic` and `Group` both come out missing; enrichment then
succeeds with `ListName = "Other"` exactly when the lower-cased
technology is neither `python` nor `r`, and fails (the missing group's
`.title()` raises) when it is `python` or `r`. -/
theorem c5_missing_topic_enrichment (cbt : List (String × List String)) (tg : Taxonomy)
    (c : CourseRecord) (h : ∀ p ∈ cbt, c.Name ∉ p.2) :
    dictLookup (buildMembership cbt) c.Name = none ∧
      (pyLower c.Technology ∉ (["python", "r"] : List String) →
        enrichCourse cbt tg c = .ok ⟨c, none, none, "Other"⟩) ∧
      (pyLower c.Technology ∈ (["python", "r"] : List String) →
        (enrichCourse cbt tg c).isOk = false) := by
  have hmem := buildMembership_lookup_none cbt c.Name h
  refine ⟨hmem, ?_, ?_⟩
  · intro htech
    simp [enrichCourse, hmem, _get_list_name, htech]
  · intro htech
    simp [enrichCourse, hmem, _get_list_name, htech, Except.isOk, Except.toBool]

/-- Witness for the amended claim C5, at a `sql` course (enrichment
succeeds with list `Other`) and a `python` course (enrichment fails). -/
theorem c5_missing_topic_enrichment_witness :
    enrichCourse [("Programming", ["Some Course"])] TOPIC_GROUPS
        ⟨"Quantum SQL", "sql", "d", "https://x", "2 hours", ""⟩ =
      .ok ⟨⟨"Quantum SQL", "sql", "d", "https://x", "2 hours", ""⟩, none, none, "Other"⟩ ∧
      (enrichCourse [("Programming", ["Some Course"])] TOPIC_GROUPS
          ⟨"Quantum Py", "python", "d", "https://x", "2 hours", ""⟩).isOk = false :=
  ⟨(c5_missing_topic_enrichment [("Programming", ["Some Course"])] TOPIC_GROUPS
      ⟨"Quantum SQL", "sql", "d", "https://x", "2 hours", ""⟩ (by decide)).2.1 (by decide),
   (c5_missing_topic_enrichment [("Programming", ["Some Course"])] TOPIC_GROUPS
      ⟨"Quantum Py", "python", "d", "https://x", "2 hours", ""⟩ (by decide)).2.2 (by decide)⟩

/-! ## Claim C10 -/

/-- Claim C10: names and author names are taken verbatim
(`get_text()`), descriptions and durations whitespace-stripped
(`get_text(strip=True)`); the verbatim name — whitespace padding
included — is then both the key joined against the topic membership dict
and the exact-equality key of the duplicate-card scan. -/
theorem c10_names_verbatim_strip_policy (blk : CourseBlock)
    (cbt : List (String × List String)) (cards : List Card) :
    (scrapeRecord blk).Name = blk.nameText ∧
      (scrapeRecord blk).Author = blk.authorText.getD "" ∧
      (scrapeRecord blk).Description = pyStrip blk.descText ∧
      (scrapeRecord blk).Time = pyStrip blk.timeText ∧
      dictLookup (buildMembership cbt) (scrapeRecord blk).Name =
        dictLookup (buildMembership cbt) blk.nameText ∧
      rowGet (rowOfRecord (scrapeRecord blk)) "Name" = .ok blk.nameText ∧
      dupeScan (rowOfRecord (scrapeRecord blk)) cards =
        .ok (cards.any (fun c => c.name == blk.nameText)) :=
  ⟨rfl, rfl, rfl, rfl, rfl, rfl,
    dupeScan_ok (rowOfRecord (scrapeRecord blk)) blk.nameText rfl cards⟩

end Scrape
